import Mathlib

/-!
Verification of the Lite Custom Operator Binding Layer
(`include/onnxruntime/core/session/onnxruntime_lite_custom_op.h`).

The development shallowly embeds the header's data model:

* `NumTensor`, `StrTensor`, `StrViewTensor` mirror the three
  `Ort::Custom::Tensor` classes (the generic numeric one and the
  `std::string` / `std::string_view` specializations);
* `ParseArgs` mirrors the compile-time schema emission, parameterised by
  an explicit list of parameter descriptors (`Param`) standing for the
  C++ parameter pack;
* `stepParam` / `createTuple` mirror the `CreateTuple` overload family
  that builds the typed argument tuple at invocation time;
* `mkOrtLiteCustomOp` / `mkOrtLiteCustomFunc` mirror the descriptor
  constructors that populate the ABI vtable.

The host runtime (kernel context, `GetInput`, `GetOutput`, string tensor
accessors) is an external collaborator; it is modelled by the `Host`
structure whose fields provide exactly the capabilities the header
consumes.  Thrown `OrtException`s are modelled by `Except Err`.
-/

/-- Errors thrown through `ORT_CXX_API_THROW`: the error-code kind plus
the message string. Only the two codes this header raises are modelled. -/
inductive Err where
  | invalidArgument (msg : String)
  | runtimeException (msg : String)
deriving DecidableEq

/-- ONNX element data types appearing in the header's `CREATE_TUPLE` /
`PARSE_ARGS` instantiation lists. -/
inductive ElemType where
  | b | f32 | f16 | bf16 | f64
  | i8 | i16 | i32 | i64
  | u8 | u16 | u32 | u64
  | str | strview
deriving DecidableEq

/-- The `ONNXTensorElementDataType` ABI code passed to `ParseArgs`
(`PARSE_ARGS(double, ONNX_TENSOR_ELEMENT_DATA_TYPE_DOUBLE)` etc.;
both `std::string` and `std::string_view` map to the STRING code). -/
def ElemType.code : ElemType → Nat
  | .b => 9
  | .f32 => 1
  | .f16 => 10
  | .bf16 => 16
  | .f64 => 11
  | .i8 => 3
  | .i16 => 5
  | .i32 => 6
  | .i64 => 7
  | .u8 => 2
  | .u16 => 4
  | .u32 => 12
  | .u64 => 13
  | .str => 8
  | .strview => 8

/-- Which of the three `Tensor` implementations serves an element type:
the generic numeric template, the `std::string` specialization, or the
`std::string_view` specialization. -/
inductive Cat where
  | num | str | strview
deriving DecidableEq

def ElemType.cat : ElemType → Cat
  | .str => .str
  | .strview => .strview
  | _ => .num

/-- The host-runtime capabilities the header consumes through
`KernelContext` and the value handles it returns.  Raw numeric buffers
are abstracted as lists of `Int` element values and mutable output
buffers as opaque pointer tokens (`Nat`). -/
structure Host where
  /-- `ctx_.GetInputCount()` -/
  numInputs : Nat
  /-- `ctx_.GetOutputCount()` -/
  numOutputs : Nat
  /-- shape of input `i` (`GetTensorTypeAndShapeInfo().GetShape()`) -/
  inputShape : Nat → List Int
  /-- element values behind `GetTensorRawData()` of input `i` -/
  inputData : Nat → List Int
  /-- `GetStringTensorDataLength()` of input `i` -/
  strDataLength : Nat → Nat
  /-- byte `j` of the packed character content `GetStringTensorContent`
  writes for input `i` -/
  strChar : Nat → Nat → Char
  /-- offset entry `j` that `GetStringTensorContent` writes for input `i` -/
  strOffset : Nat → Nat → Nat
  /-- pointer returned by `ctx_.GetOutput(indice, shape).GetTensorMutableData()` -/
  alloc : Nat → List Int → Nat

/-! ### Numeric tensor view (`Ort::Custom::Tensor<T>` for onnx numeric T) -/

/-- State of a `Custom::Tensor<T>` object for numeric `T`: the stored
index and direction, the cached optional shape (`TensorBase::shape_`),
the input element values reachable through `const_value_`, and the
cached mutable output pointer `data_`. -/
structure NumTensor where
  indice : Nat
  is_input : Bool
  shape? : Option (List Int)
  constData : List Int
  data? : Option Nat
deriving DecidableEq

/-- The `Tensor<T>` constructor: inputs are bounds-checked against
`ctx_.GetInputCount()` (throwing `ORT_INVALID_ARGUMENT` before any host
value is fetched), then fetch the value handle and eagerly cache the
shape; outputs record the index and defer everything. -/
def NumTensor.construct (h : Host) (indice : Nat) (isIn : Bool) : Except Err NumTensor :=
  if isIn then
    if h.numInputs ≤ indice then
      .error (.invalidArgument "invalid indice for Ort::Custom::Tensor")
    else
      .ok { indice := indice, is_input := true,
            shape? := some (h.inputShape indice),
            constData := h.inputData indice, data? := none }
  else
    .ok { indice := indice, is_input := false,
          shape? := none, constData := [], data? := none }

/-- `Tensor<T>::Shape()`: throws `ORT_RUNTIME_EXCEPTION` while
`shape_` is unset, otherwise returns the cached shape. -/
def NumTensor.shapeE (t : NumTensor) : Except Err (List Int) :=
  match t.shape? with
  | none => .error (.runtimeException "tensor shape is not yet initialized")
  | some s => .ok s

/-- `Tensor<T>::NumberOfElement()`: product of the cached dims, 0 when
no shape is cached. (Machine `int64_t` overflow is not modelled; the
claims are about shapes whose products are far below `2^63`.) -/
def NumTensor.numberOfElement (t : NumTensor) : Int :=
  match t.shape? with
  | none => 0
  | some s => s.foldl (· * ·) 1

/-- `Tensor<T>::Allocate(shape)`: `shape_ = shape` is assigned
unconditionally; only when no output pointer is cached yet is
`ctx_.GetOutput` asked for a buffer and the pointer cached.  Returns the
updated object state together with the returned pointer. -/
def NumTensor.allocate (h : Host) (t : NumTensor) (shape : List Int) : NumTensor × Nat :=
  match t.data? with
  | some p => ({ t with shape? := some shape }, p)
  | none =>
      let p := h.alloc t.indice shape
      ({ t with shape? := some shape, data? := some p }, p)

/-- A sequence of further `Allocate` calls: final object state plus the
pointer returned by each call, in order. -/
def allocateSeq (h : Host) (t : NumTensor) : List (List Int) → NumTensor × List Nat
  | [] => (t, [])
  | s :: rest =>
      let r := t.allocate h s
      let q := allocateSeq h r.1 rest
      (q.1, r.2 :: q.2)

/-- `Tensor<T>::AsSpan()`: requires a cached shape of rank exactly 1,
then returns a span over the whole input buffer (`Assign(Data(),
shape[0])`), modelled as the list of spanned element values. -/
def NumTensor.asSpan (t : NumTensor) : Except Err (List Int) :=
  match t.shape? with
  | some s =>
      if s.length = 1 then .ok (t.constData.take s.headI.toNat)
      else .error (.runtimeException
        "invalid shape while trying to get a span out of Ort::Custom::Tensor")
  | none => .error (.runtimeException
      "invalid shape while trying to get a span out of Ort::Custom::Tensor")

/-- `Tensor<T>::AsScalar()`: requires a cached shape of rank 1 and
extent 1, then returns `*Data()`, the first buffer element. -/
def NumTensor.asScalar (t : NumTensor) : Except Err Int :=
  match t.shape? with
  | some s =>
      if s.length = 1 ∧ s.headI = 1 then .ok t.constData.headI
      else .error (.runtimeException
        "invalid shape while trying to get a scalar from Ort::Custom::Tensor")
  | none => .error (.runtimeException
      "invalid shape while trying to get a scalar from Ort::Custom::Tensor")

/-! ### String tensor view (`Ort::Custom::Tensor<std::string>`) -/

/-- The character buffer after `GetStringTensorContent`: the constructor
resizes to `num_chars + 1` filled with NUL and the host writes the
`num_chars` content bytes, leaving the final NUL terminator in place. -/
def packedChars (h : Host) (indice : Nat) : List Char :=
  (List.range (h.strDataLength indice)).map (h.strChar indice) ++ [Char.ofNat 0]

/-- The `num_strings` offsets the host writes into the offsets vector. -/
def hostOffsets (h : Host) (indice n : Nat) : List Nat :=
  (List.range n).map (h.strOffset indice)

/-- A C-string read starting at `start`: the bytes up to the first NUL. -/
def cstrAt (buf : List Char) (start : Nat) : List Char :=
  (buf.drop start).takeWhile (fun c => c ≠ Char.ofNat 0)

/-- The `Tensor<std::string>` constructor's decoding loop: it writes a
NUL terminator at `offsets[i + 1]` for every non-final element (the
final element is bounded by the buffer's own trailing NUL) and then
reads each `input_strings_[i]` as the C-string at `chars + offsets[i]`. -/
def decodeStrings (buf : List Char) (offsets : List Nat) : List (List Char) :=
  let marked := (offsets.drop 1).foldl (fun b pos => b.set pos (Char.ofNat 0)) buf
  offsets.map (cstrAt marked)

/-- `static_cast<size_t>(NumberOfElement())` used as the string element
count (`num_strings`): the product of the cached dims as a `Nat`. -/
def elemCountN (shape : List Int) : Nat :=
  (shape.foldl (· * ·) 1).toNat

/-- State of a `Custom::Tensor<std::string>` object: stored index and
direction, cached shape, and the decoded `input_strings_`. -/
structure StrTensor where
  indice : Nat
  is_input : Bool
  shape? : Option (List Int)
  input_strings : List (List Char)
deriving DecidableEq

/-- The `Tensor<std::string>` constructor: same `GetInputCount` bounds
check as the numeric view, then cache the shape and decode the packed
host content into owned strings (a no-op when `num_strings` is 0). -/
def StrTensor.construct (h : Host) (indice : Nat) (isIn : Bool) : Except Err StrTensor :=
  if isIn then
    if h.numInputs ≤ indice then
      .error (.invalidArgument "invalid indice for Ort::Custom::Tensor")
    else
      let shape := h.inputShape indice
      let n := elemCountN shape
      .ok { indice := indice, is_input := true, shape? := some shape,
            input_strings :=
              if n = 0 then []
              else decodeStrings (packedChars h indice) (hostOffsets h indice n) }
  else
    .ok { indice := indice, is_input := false, shape? := none, input_strings := [] }

/-- `Tensor<std::string>::AsScalar()`: requires exactly one decoded
string and returns it. -/
def StrTensor.asScalar (t : StrTensor) : Except Err (List Char) :=
  if t.input_strings.length = 1 then .ok t.input_strings.headI
  else .error (.runtimeException
    "invalid shape while trying to get a scalar string from Ort::Custom::Tensor")

/-! ### String-view tensor view (`Ort::Custom::Tensor<std::string_view>`) -/

/-- `size_t` subtraction modulo `2^64`, used for the view lengths
`offsets[i + 1] - offsets[i]`. -/
def sizeSub (b a : Nat) : Nat := (2 ^ 64 + b - a) % 2 ^ 64

/-- State of a `Custom::Tensor<std::string_view>` object: stored index
and direction, cached shape, the retained raw byte buffer `chars_`, and
the non-owning views `input_string_views_` as (start, length) pairs
into that buffer. -/
structure StrViewTensor where
  indice : Nat
  is_input : Bool
  shape? : Option (List Int)
  chars : List Char
  input_string_views : List (Nat × Nat)
deriving DecidableEq

/-- The `Tensor<std::string_view>` constructor: same bounds check, cache
the shape, retain the raw buffer, fetch the `num_strings` offsets,
append the synthesized final offset `num_chars`, and emit one view per
element at `offsets[i]` with length `offsets[i + 1] - offsets[i]`. -/
def StrViewTensor.construct (h : Host) (indice : Nat) (isIn : Bool) : Except Err StrViewTensor :=
  if isIn then
    if h.numInputs ≤ indice then
      .error (.invalidArgument "invalid indice for Ort::Custom::Tensor")
    else
      let shape := h.inputShape indice
      let numChars := h.strDataLength indice
      let n := elemCountN shape
      let offsets := hostOffsets h indice n ++ [numChars]
      .ok { indice := indice, is_input := true, shape? := some shape,
            chars := packedChars h indice,
            input_string_views :=
              if n = 0 then []
              else (List.range n).map fun i =>
                (offsets.getD i 0, sizeSub (offsets.getD (i + 1) 0) (offsets.getD i 0)) }
  else
    .ok { indice := indice, is_input := false, shape? := none,
          chars := [], input_string_views := [] }

/-- `Tensor<std::string_view>::Data()`: the emitted non-owning views. -/
def StrViewTensor.Data (t : StrViewTensor) : List (Nat × Nat) :=
  t.input_string_views

/-- `Tensor<std::string_view>::AsScalar()`: requires exactly one view
and returns it. -/
def StrViewTensor.asScalar (t : StrViewTensor) : Except Err (Nat × Nat) :=
  if t.input_string_views.length = 1 then .ok t.input_string_views.headI
  else .error (.runtimeException
    "invalid shape while trying to get a scalar string view from Ort::Custom::Tensor")

/-! ### Parameter descriptors (the compile-time parameter pack) -/

/-- The three input parameter shapes of the header: a tensor view
(`const Tensor<T>&` / `const Tensor<T>*`), a span (`const Span<T>&` /
`const Span<T>*`), or a by-value scalar `T`. -/
inductive InKind where
  | tensor | span | scalar
deriving DecidableEq

/-- One entry of the user function's parameter list, as the
`CreateTuple` / `ParseArgs` overload sets classify it: the opaque
`OrtKernelContext*`, an EP device context (`CudaContext*` /
`DmlContext*` under their feature macros), an input of one of the three
shapes (with its `std::optional<...>` flag and element type), or an
output tensor (`Tensor<T>&` / `Tensor<T>*` /
`std::optional<Tensor<T>*>`). -/
inductive Param where
  | context
  | epContext
  | input (k : InKind) (opt : Bool) (et : ElemType)
  | output (opt : Bool) (et : ElemType)
deriving DecidableEq

/-- `ParseArgs<Ts...>(input_types_, output_types_)`: walk the parameter
list appending each input parameter's element-type code to the input
vector and each output parameter's to the output vector; the context
and EP-context overloads append nothing; `std::optional` shapes append
exactly like the required ones (`PARSE_INPUT_BASE` emits both). -/
def ParseArgs : List Param → List Nat × List Nat → List Nat × List Nat
  | [], acc => acc
  | .context :: ps, acc => ParseArgs ps acc
  | .epContext :: ps, acc => ParseArgs ps acc
  | .input _ _ et :: ps, acc => ParseArgs ps (acc.1 ++ [et.code], acc.2)
  | .output _ et :: ps, acc => ParseArgs ps (acc.1, acc.2 ++ [et.code])

/-- Spec-side schema (from the spec's words): the reported input types
are the parameters mapped, in source order, to their element-type code,
keeping inputs only and filtering out context/EP handles. -/
def specInputTypes (ps : List Param) : List Nat :=
  ps.filterMap fun p =>
    match p with
    | .input _ _ et => some et.code
    | _ => none

/-- Spec-side schema for outputs, analogous to `specInputTypes`. -/
def specOutputTypes (ps : List Param) : List Nat :=
  ps.filterMap fun p =>
    match p with
    | .output _ et => some et.code
    | _ => none

/-! ### Operator descriptor (`OrtLiteCustomOp`) -/

/-- `OrtCustomOpInputOutputCharacteristic`. -/
inductive Characteristic where
  | required | optional | variadic
deriving DecidableEq

/-- `OrtMemType` as consumed here (`OrtMemTypeDefault`). -/
inductive OrtMemType where
  | memTypeDefault
deriving DecidableEq

/-- The populated descriptor: stored name, execution provider and type
vectors, plus the constant answers the installed vtable thunks return. -/
structure OrtLiteCustomOp where
  op_name : String
  execution_provider : String
  input_types : List Nat
  output_types : List Nat
  GetInputCharacteristic : Nat → Characteristic
  GetOutputCharacteristic : Nat → Characteristic
  GetInputMemoryType : Nat → OrtMemType
  GetVariadicInputMinArity : Nat
  GetVariadicInputHomogeneity : Nat
  GetVariadicOutputMinArity : Nat
  GetVariadicOutputHomogeneity : Nat

/-- The `OrtLiteCustomOp` base constructor: stores name and EP and
installs the constant thunks — every input and output characteristic is
`INPUT_OUTPUT_OPTIONAL`, the input memory type is `OrtMemTypeDefault`,
and the four variadic arity/homogeneity hooks return 0. -/
def mkOrtLiteCustomOp (op_name execution_provider : String)
    (input_types output_types : List Nat) : OrtLiteCustomOp :=
  { op_name := op_name, execution_provider := execution_provider,
    input_types := input_types, output_types := output_types,
    GetInputCharacteristic := fun _ => .optional,
    GetOutputCharacteristic := fun _ => .optional,
    GetInputMemoryType := fun _ => .memTypeDefault,
    GetVariadicInputMinArity := 0,
    GetVariadicInputHomogeneity := 0,
    GetVariadicOutputMinArity := 0,
    GetVariadicOutputHomogeneity := 0 }

/-- The `OrtLiteCustomFunc` (and, identically, `OrtLiteCustomStruct`)
constructor: build the base descriptor and run
`ParseArgs<Args...>(input_types_, output_types_)` on the parameter list
to populate the type vectors. -/
def mkOrtLiteCustomFunc (op_name execution_provider : String)
    (ps : List Param) : OrtLiteCustomOp :=
  let tys := ParseArgs ps ([], [])
  mkOrtLiteCustomOp op_name execution_provider tys.1 tys.2

/-! ### Tuple construction (`CreateTuple`) -/

/-- The scalar value a scalar parameter receives: `AsScalar()` of the
numeric, string, or string-view tensor view. -/
inductive ScalarVal where
  | num (v : Int)
  | str (s : List Char)
  | strv (v : Nat × Nat)
deriving DecidableEq

/-- One element of the argument tuple handed to the user function:
either a context pointer, a (possibly optional, possibly absent) tensor
view, a span with its spanned values, or a scalar value. Tensor
arguments carry the constructed view object. -/
inductive Arg where
  | ctx
  | epCtx
  | tensorIn (t : NumTensor)
  | optTensorIn (t? : Option NumTensor)
  | strTensorIn (t : StrTensor)
  | optStrTensorIn (t? : Option StrTensor)
  | strViewIn (t : StrViewTensor)
  | optStrViewIn (t? : Option StrViewTensor)
  | spanIn (idx : Nat) (v : List Int)
  | optSpanIn (v? : Option (Nat × List Int))
  | scalarIn (idx : Nat) (v : ScalarVal)
  | optScalarIn (v? : Option (Nat × ScalarVal))
  | tensorOut (t : NumTensor)
  | optTensorOut (t? : Option NumTensor)
  | strTensorOut (t : StrTensor)
  | optStrTensorOut (t? : Option StrTensor)
deriving DecidableEq

/-- The CPU-execution-provider gate guarding span and scalar inputs:
`if ("CPUExecutionProvider" != ep) ORT_CXX_API_THROW(msg,
ORT_RUNTIME_EXCEPTION)`. -/
def epGate (ep msg : String) : Except Err Unit :=
  if ep = "CPUExecutionProvider" then .ok ()
  else .error (.runtimeException msg)

/-- The body of the `CreateTuple` overload matched by one parameter:
how the `current` tuple element is produced from the kernel context.
Mirrors, case by case, the overload set of the header:

* context / EP context: pass the pointer through;
* required input tensor: construct the view at `ith_input`;
* optional input tensor: only when `ith_input < num_input`, else an
  empty `std::optional`;
* span / scalar inputs: EP gate first, then construct the view and
  reinterpret via `AsSpan()` / `AsScalar()` (for string element types
  `AsSpan()` unconditionally throws its not-implemented error); for the
  optional shapes the presence test precedes the EP gate;
* output tensor: construct a deferred view at `ith_output`, with the
  same presence test for the optional shape.  No `CreateTuple` overload
  exists for a `std::string_view` output (only `ParseArgs` accepts it),
  so that case is an error. -/
def stepParam (h : Host) (ep : String) (nI nO : Nat) : Param → Nat → Nat → Except Err Arg
  | .context, _, _ => .ok .ctx
  | .epContext, _, _ => .ok .epCtx
  | .input .tensor false et, i, _ =>
      match et.cat with
      | .num => (NumTensor.construct h i true).map .tensorIn
      | .str => (StrTensor.construct h i true).map .strTensorIn
      | .strview => (StrViewTensor.construct h i true).map .strViewIn
  | .input .tensor true et, i, _ =>
      if i < nI then
        match et.cat with
        | .num => (NumTensor.construct h i true).map fun t => .optTensorIn (some t)
        | .str => (StrTensor.construct h i true).map fun t => .optStrTensorIn (some t)
        | .strview => (StrViewTensor.construct h i true).map fun t => .optStrViewIn (some t)
      else
        match et.cat with
        | .num => .ok (.optTensorIn none)
        | .str => .ok (.optStrTensorIn none)
        | .strview => .ok (.optStrViewIn none)
  | .input .span false et, i, _ =>
      (epGate ep "span input could only be applied to CPU EP").bind fun _ =>
      match et.cat with
      | .num => (NumTensor.construct h i true).bind fun t =>
          t.asSpan.map fun v => .spanIn i v
      | .str => (StrTensor.construct h i true).bind fun _ =>
          .error (.runtimeException "span for TensorT of string not implemented")
      | .strview => (StrViewTensor.construct h i true).bind fun _ =>
          .error (.runtimeException "span for TensorT of string view not implemented")
  | .input .span true et, i, _ =>
      if i < nI then
        (epGate ep "span input could only be applied to CPU EP").bind fun _ =>
        match et.cat with
        | .num => (NumTensor.construct h i true).bind fun t =>
            t.asSpan.map fun v => .optSpanIn (some (i, v))
        | .str => (StrTensor.construct h i true).bind fun _ =>
            .error (.runtimeException "span for TensorT of string not implemented")
        | .strview => (StrViewTensor.construct h i true).bind fun _ =>
            .error (.runtimeException "span for TensorT of string view not implemented")
      else .ok (.optSpanIn none)
  | .input .scalar false et, i, _ =>
      (epGate ep "scalar input could only be applied to CPU EP").bind fun _ =>
      match et.cat with
      | .num => (NumTensor.construct h i true).bind fun t =>
          t.asScalar.map fun v => .scalarIn i (.num v)
      | .str => (StrTensor.construct h i true).bind fun t =>
          t.asScalar.map fun v => .scalarIn i (.str v)
      | .strview => (StrViewTensor.construct h i true).bind fun t =>
          t.asScalar.map fun v => .scalarIn i (.strv v)
  | .input .scalar true et, i, _ =>
      if i < nI then
        (epGate ep "scalar input could only be applied to CPU EP").bind fun _ =>
        match et.cat with
        | .num => (NumTensor.construct h i true).bind fun t =>
            t.asScalar.map fun v => .optScalarIn (some (i, .num v))
        | .str => (StrTensor.construct h i true).bind fun t =>
            t.asScalar.map fun v => .optScalarIn (some (i, .str v))
        | .strview => (StrViewTensor.construct h i true).bind fun t =>
            t.asScalar.map fun v => .optScalarIn (some (i, .strv v))
      else .ok (.optScalarIn none)
  | .output false et, _, o =>
      match et.cat with
      | .strview => .error (.runtimeException
          "string_view output is not supported by CreateTuple")
      | .num => (NumTensor.construct h o false).map .tensorOut
      | .str => (StrTensor.construct h o false).map .strTensorOut
  | .output true et, _, o =>
      match et.cat with
      | .strview => .error (.runtimeException
          "string_view output is not supported by CreateTuple")
      | .num =>
          if o < nO then
            (NumTensor.construct h o false).map fun t => .optTensorOut (some t)
          else .ok (.optTensorOut none)
      | .str =>
          if o < nO then
            (StrTensor.construct h o false).map fun t => .optStrTensorOut (some t)
          else .ok (.optStrTensorOut none)

/-- The input-counter advance of one parameter: every `CreateTuple`
input overload recurses with `ith_input + 1` (also on the
absent-optional branch); all other overloads keep it unchanged. -/
def Param.nextI (p : Param) (i : Nat) : Nat :=
  match p with
  | .input _ _ _ => i + 1
  | _ => i

/-- The output-counter advance, analogous to `Param.nextI`. -/
def Param.nextO (p : Param) (o : Nat) : Nat :=
  match p with
  | .output _ _ => o + 1
  | _ => o

/-- `CreateTuple<ith_input, ith_output, Ts...>`: produce the `current`
element for the head parameter, recurse on the tail with the advanced
counters, and concatenate (`std::tuple_cat(current, next)`).  An
`ORT_CXX_API_THROW` anywhere aborts the whole construction. -/
def createTuple (h : Host) (ep : String) (nI nO : Nat) :
    List Param → Nat → Nat → Except Err (List Arg)
  | [], _, _ => .ok []
  | p :: ps, i, o =>
      (stepParam h ep nI nO p i o).bind fun a =>
      (createTuple h ep nI nO ps (p.nextI i) (p.nextO o)).map fun args => a :: args

/-- The `KernelCompute` thunk up to the point the user function is
invoked: build the tensor container and argument tuple via
`CreateTuple<0, 0, Args...>` with the kernel's stored input/output
counts and EP name.  On `.ok args` the thunk `std::apply`s the user
callable to `args`; on `.error` the exception propagates and the user
function never runs. -/
def kernelCompute (h : Host) (ep : String) (nI nO : Nat) (ps : List Param) :
    Except Err (List Arg) :=
  createTuple h ep nI nO ps 0 0

/-! ### Binding indices (which host slot each tuple element reads/writes) -/

/-- For a tuple element that corresponds to an input parameter, the host
input index it is bound to (`some idx`), or `none` for an absent
optional; `Option.none` at the outer layer for elements that are not
input parameters (context handles and outputs).  Tensor arguments
report the constructed view's stored `indice_`. -/
def argInputSlot : Arg → Option (Option Nat)
  | .ctx => none
  | .epCtx => none
  | .tensorIn t => some (some t.indice)
  | .optTensorIn (some t) => some (some t.indice)
  | .optTensorIn none => some none
  | .strTensorIn t => some (some t.indice)
  | .optStrTensorIn (some t) => some (some t.indice)
  | .optStrTensorIn none => some none
  | .strViewIn t => some (some t.indice)
  | .optStrViewIn (some t) => some (some t.indice)
  | .optStrViewIn none => some none
  | .spanIn i _ => some (some i)
  | .optSpanIn (some iv) => some (some iv.1)
  | .optSpanIn none => some none
  | .scalarIn i _ => some (some i)
  | .optScalarIn (some iv) => some (some iv.1)
  | .optScalarIn none => some none
  | .tensorOut _ => none
  | .optTensorOut _ => none
  | .strTensorOut _ => none
  | .optStrTensorOut _ => none

/-- The host output index a tuple element writes to, analogous to
`argInputSlot`. -/
def argOutputSlot : Arg → Option (Option Nat)
  | .tensorOut t => some (some t.indice)
  | .optTensorOut (some t) => some (some t.indice)
  | .optTensorOut none => some none
  | .strTensorOut t => some (some t.indice)
  | .optStrTensorOut (some t) => some (some t.indice)
  | .optStrTensorOut none => some none
  | _ => none

/-- The sequence of host input bindings of an argument tuple, one entry
per input parameter in source order (`some idx` bound, `none` absent). -/
def inputSlots (args : List Arg) : List (Option Nat) :=
  args.filterMap argInputSlot

/-- The sequence of host output bindings of an argument tuple. -/
def outputSlots (args : List Arg) : List (Option Nat) :=
  args.filterMap argOutputSlot

/-- Spec-side binding sequence (from the spec's words): walking the
parameter list with a running input counter starting at `i`, each input
parameter is bound to the counter's current value — or absent when it
is optional and the host reports no input at that position — and the
counter advances by one either way; other parameters bind nothing. -/
def specInputSlots (nI : Nat) : List Param → Nat → List (Option Nat)
  | [], _ => []
  | .input _ opt _ :: ps, i =>
      (if opt ∧ nI ≤ i then none else some i) :: specInputSlots nI ps (i + 1)
  | .context :: ps, i => specInputSlots nI ps i
  | .epContext :: ps, i => specInputSlots nI ps i
  | .output _ _ :: ps, i => specInputSlots nI ps i

/-- Spec-side output binding sequence, analogous to `specInputSlots`. -/
def specOutputSlots (nO : Nat) : List Param → Nat → List (Option Nat)
  | [], _ => []
  | .output opt _ :: ps, o =>
      (if opt ∧ nO ≤ o then none else some o) :: specOutputSlots nO ps (o + 1)
  | .context :: ps, o => specOutputSlots nO ps o
  | .epContext :: ps, o => specOutputSlots nO ps o
  | .input _ _ _ :: ps, o => specOutputSlots nO ps o

/-- The binding contribution of a single parameter. -/
def headInputSlot (nI : Nat) (p : Param) (i : Nat) : Option (Option Nat) :=
  match p with
  | .input _ opt _ => some (if opt ∧ nI ≤ i then none else some i)
  | _ => none

/-- The output-binding contribution of a single parameter. -/
def headOutputSlot (nO : Nat) (p : Param) (o : Nat) : Option (Option Nat) :=
  match p with
  | .output opt _ => some (if opt ∧ nO ≤ o then none else some o)
  | _ => none

/-! ### Predicates for the EP-gating analysis -/

/-- Number of input parameters in a parameter list (each advances the
input counter by one). -/
def countInputs : List Param → Nat
  | [] => 0
  | .input _ _ _ :: ps => countInputs ps + 1
  | _ :: ps => countInputs ps

/-- Whether a parameter list, walked with input counter `i` against a
kernel reporting `nI` inputs, reaches a span or scalar parameter whose
CPU gate executes: a required span/scalar always does, an optional one
only when present (`i < nI`). -/
def hasGated (nI : Nat) : List Param → Nat → Bool
  | [], _ => false
  | .input .span false _ :: _, _ => true
  | .input .scalar false _ :: _, _ => true
  | .input .span true _ :: ps, i => decide (i < nI) || hasGated nI ps (i + 1)
  | .input .scalar true _ :: ps, i => decide (i < nI) || hasGated nI ps (i + 1)
  | .input .tensor _ _ :: ps, i => hasGated nI ps (i + 1)
  | .context :: ps, i => hasGated nI ps i
  | .epContext :: ps, i => hasGated nI ps i
  | .output _ _ :: ps, i => hasGated nI ps i

/-- A parameter list every entry of which has a `CreateTuple` overload:
everything except a `std::string_view` output (which only `ParseArgs`
accepts). -/
def Param.computeSupported : Param → Bool
  | .output _ .strview => false
  | _ => true

/-! ### Concrete instances used by witnesses and counterexamples -/

/-- A concrete host used by the witnesses: one input of shape `[1]`
with data `[7]`. -/
def hostW : Host :=
  { numInputs := 1, numOutputs := 1,
    inputShape := fun _ => [1], inputData := fun _ => [7],
    strDataLength := fun _ => 0, strChar := fun _ _ => Char.ofNat 0,
    strOffset := fun _ _ => 0, alloc := fun _ _ => 42 }

/-- A host reporting no inputs at all. -/
def hostEmpty : Host :=
  { numInputs := 0, numOutputs := 0,
    inputShape := fun _ => [], inputData := fun _ => [],
    strDataLength := fun _ => 0, strChar := fun _ _ => Char.ofNat 0,
    strOffset := fun _ _ => 0, alloc := fun _ _ => 0 }

/-- The state of a freshly constructed output tensor view at index 0. -/
def outTensor0 : NumTensor :=
  { indice := 0, is_input := false, shape? := none, constData := [], data? := none }

/-- The last element of a list, or the default `d` when empty. -/
def lastD (ss : List (List Int)) (d : List Int) : List Int :=
  match ss with
  | [] => d
  | s :: rest => lastD rest s

/-- The offsets vector the string-view constructor indexes: the
`num_strings` host-written offsets with the synthesized final offset
`num_chars` appended (`offsets.push_back(num_chars)`). -/
def synthOffsets (h : Host) (idx : Nat) : List Nat :=
  hostOffsets h idx (elemCountN (h.inputShape idx)) ++ [h.strDataLength idx]

/-- A concrete host presenting one string tensor of shape `[2]` packed
as "abc" with offsets `[0, 2]` (elements "ab" and "c"). -/
def hostS : Host :=
  { numInputs := 1, numOutputs := 1,
    inputShape := fun _ => [2], inputData := fun _ => [],
    strDataLength := fun _ => 3,
    strChar := fun _ j => if j = 0 then 'a' else if j = 1 then 'b' else 'c',
    strOffset := fun _ j => if j = 0 then 0 else 2,
    alloc := fun _ _ => 0 }

/-- The string-view tensor view `hostS` input 0 constructs. -/
def tS : StrViewTensor :=
  { indice := 0, is_input := true, shape? := some [2],
    chars := packedChars hostS 0, input_string_views := [(0, 2), (2, 1)] }

/-- A parameter list exercising context, required input, absent
optional input, and output. -/
def ps2 : List Param :=
  [.context, .input .tensor false .f32, .input .tensor true .i32, .output false .f32]

/-- The argument tuple `ps2` yields on `hostW` with one reported input
and one reported output. -/
def args2 : List Arg :=
  [.ctx,
   .tensorIn { indice := 0, is_input := true, shape? := some [1],
               constData := [7], data? := none },
   .optTensorIn none,
   .tensorOut { indice := 0, is_input := false, shape? := none,
                constData := [], data? := none }]

/-! ### Helper lemmas -/

theorem exceptMap_ok {α β : Type} {f : α → β} {x : Except Err α} {b : β}
    (hx : x.map f = .ok b) : ∃ a, x = .ok a ∧ b = f a := by
  cases x with
  | error e => simp [Except.map] at hx
  | ok a => exact ⟨a, rfl, by simpa [Except.map] using hx.symm⟩

theorem exceptBind_ok {α β : Type} {x : Except Err α} {f : α → Except Err β} {b : β}
    (hx : x.bind f = .ok b) : ∃ a, x = .ok a ∧ f a = .ok b := by
  cases x with
  | error e => simp [Except.bind] at hx
  | ok a => exact ⟨a, rfl, by simpa [Except.bind] using hx⟩

theorem exceptBind_error {α β : Type} (e : Err) (f : α → Except Err β) :
    (Except.error e).bind f = .error e := rfl

theorem exceptOkBind {α β : Type} (a : α) (f : α → Except Err β) :
    (Except.ok a).bind f = f a := rfl

theorem exceptMap_error {α β : Type} (e : Err) (f : α → β) :
    (Except.error (α := α) e).map f = .error e := rfl

theorem numConstruct_indice {h : Host} {i : Nat} {b : Bool} {t : NumTensor}
    (hc : NumTensor.construct h i b = .ok t) : t.indice = i := by
  unfold NumTensor.construct at hc
  split at hc
  · split at hc
    · cases hc
    · rw [Except.ok.injEq] at hc; subst hc; rfl
  · rw [Except.ok.injEq] at hc; subst hc; rfl

theorem strConstruct_indice {h : Host} {i : Nat} {b : Bool} {t : StrTensor}
    (hc : StrTensor.construct h i b = .ok t) : t.indice = i := by
  unfold StrTensor.construct at hc
  split at hc
  · split at hc
    · cases hc
    · rw [Except.ok.injEq] at hc; subst hc; rfl
  · rw [Except.ok.injEq] at hc; subst hc; rfl

theorem svConstruct_indice {h : Host} {i : Nat} {b : Bool} {t : StrViewTensor}
    (hc : StrViewTensor.construct h i b = .ok t) : t.indice = i := by
  unfold StrViewTensor.construct at hc
  split at hc
  · split at hc
    · cases hc
    · rw [Except.ok.injEq] at hc; subst hc; rfl
  · rw [Except.ok.injEq] at hc; subst hc; rfl

theorem ParseArgs_append (ps : List Param) :
    ∀ ins outs, ParseArgs ps (ins, outs) =
      (ins ++ specInputTypes ps, outs ++ specOutputTypes ps) := by
  induction ps with
  | nil => intro ins outs; simp [ParseArgs, specInputTypes, specOutputTypes]
  | cons p ps ih =>
    intro ins outs
    cases p <;>
      simp [ParseArgs, specInputTypes, specOutputTypes, ih, List.filterMap_cons]

/-! ### Claim theorems -/

/-- Claim C1: for every supported parameter list, `ParseArgs` populates
the descriptor's `input_types_` and `output_types_` with exactly the
element-type codes of the input (resp. output) parameters in source
order; context and EP-handle parameters contribute nothing and
optional-shaped parameters contribute a code at their position exactly
like required ones (`specInputTypes` / `specOutputTypes` are that
spec-side mapping). -/
theorem claim_C1_schema (op_name ep : String) (ps : List Param) :
    (mkOrtLiteCustomFunc op_name ep ps).input_types = specInputTypes ps ∧
    (mkOrtLiteCustomFunc op_name ep ps).output_types = specOutputTypes ps := by
  simp [mkOrtLiteCustomFunc, mkOrtLiteCustomOp, ParseArgs_append]

/-- Claim C8: every descriptor built by the `OrtLiteCustomOp`
constructor reports, at every index, characteristic
`INPUT_OUTPUT_OPTIONAL` for inputs and outputs, `OrtMemTypeDefault` as
the input memory type, and 0 from all four variadic
arity/homogeneity hooks. -/
theorem claim_C8_descriptor_defaults (op_name ep : String)
    (ins outs : List Nat) (i j k : Nat) :
    (mkOrtLiteCustomOp op_name ep ins outs).GetInputCharacteristic i = .optional ∧
    (mkOrtLiteCustomOp op_name ep ins outs).GetOutputCharacteristic j = .optional ∧
    (mkOrtLiteCustomOp op_name ep ins outs).GetInputMemoryType k = .memTypeDefault ∧
    (mkOrtLiteCustomOp op_name ep ins outs).GetVariadicInputMinArity = 0 ∧
    (mkOrtLiteCustomOp op_name ep ins outs).GetVariadicInputHomogeneity = 0 ∧
    (mkOrtLiteCustomOp op_name ep ins outs).GetVariadicOutputMinArity = 0 ∧
    (mkOrtLiteCustomOp op_name ep ins outs).GetVariadicOutputHomogeneity = 0 :=
  ⟨rfl, rfl, rfl, rfl, rfl, rfl, rfl⟩

/-- Claim C5: an output numeric tensor view starts with no cached
shape, so `Shape()` before `Allocate` throws `ORT_RUNTIME_EXCEPTION`
with message "tensor shape is not yet initialized"; once `Allocate`
caches a shape, `Shape()` returns it. -/
theorem claim_C5_shape_before_allocate (h : Host) (i : Nat) (t : NumTensor)
    (s : List Int) (ht : NumTensor.construct h i false = .ok t) :
    t.shapeE = .error (.runtimeException "tensor shape is not yet initialized") ∧
    ((t.allocate h s).1).shapeE = .ok s := by
  simp only [NumTensor.construct, if_neg, Bool.false_eq_true, ite_false,
    Except.ok.injEq] at ht
  subst ht
  constructor
  · rfl
  · simp [NumTensor.allocate, NumTensor.shapeE]

/-- Claim C6: `AsScalar()` on a numeric tensor view fails with the
invalid-shape `ORT_RUNTIME_EXCEPTION` unless the cached shape is
exactly `[1]` (rank 1, extent 1), in which case it returns the single
buffer element `*Data()`. -/
theorem claim_C6_as_scalar (t : NumTensor) :
    t.asScalar =
      if t.shape? = some [1] then .ok t.constData.headI
      else .error (.runtimeException
        "invalid shape while trying to get a scalar from Ort::Custom::Tensor") := by
  unfold NumTensor.asScalar
  rcases hs : t.shape? with _ | s
  · simp
  · rcases s with _ | ⟨a, _ | ⟨b, rest⟩⟩
    · simp
    · by_cases ha : a = 1
      · subst ha; simp [List.headI]
      · simp [List.headI, ha]
    · simp

/-- Claim C7: the input constructors of all three tensor views
(numeric, string, string-view) reject an index at or past the host's
`GetInputCount` with `ORT_INVALID_ARGUMENT` before fetching any host
value. -/
theorem claim_C7_input_bounds (h : Host) (i : Nat) (hge : h.numInputs ≤ i) :
    NumTensor.construct h i true
      = .error (.invalidArgument "invalid indice for Ort::Custom::Tensor") ∧
    StrTensor.construct h i true
      = .error (.invalidArgument "invalid indice for Ort::Custom::Tensor") ∧
    StrViewTensor.construct h i true
      = .error (.invalidArgument "invalid indice for Ort::Custom::Tensor") := by
  refine ⟨?_, ?_, ?_⟩ <;>
    simp [NumTensor.construct, StrTensor.construct, StrViewTensor.construct, hge]

theorem claim_C5_witness :
    outTensor0.shapeE
      = .error (.runtimeException "tensor shape is not yet initialized") ∧
    ((outTensor0.allocate hostW [3]).1).shapeE = .ok [3] :=
  claim_C5_shape_before_allocate hostW 0 outTensor0 [3] rfl

theorem claim_C7_witness :
    NumTensor.construct hostEmpty 0 true
      = .error (.invalidArgument "invalid indice for Ort::Custom::Tensor") ∧
    StrTensor.construct hostEmpty 0 true
      = .error (.invalidArgument "invalid indice for Ort::Custom::Tensor") ∧
    StrViewTensor.construct hostEmpty 0 true
      = .error (.invalidArgument "invalid indice for Ort::Custom::Tensor") :=
  claim_C7_input_bounds hostEmpty 0 (Nat.le_refl 0)

theorem numAllocate_of_cached (h : Host) (t : NumTensor) (p : Nat) (s : List Int)
    (hp : t.data? = some p) : t.allocate h s = ({ t with shape? := some s }, p) := by
  simp [NumTensor.allocate, hp]

theorem allocateSeq_cached (h : Host) (p : Nat) :
    ∀ (ss : List (List Int)) (t : NumTensor), t.data? = some p →
      (allocateSeq h t ss).2 = ss.map (fun _ => p) ∧
      (allocateSeq h t ss).1.data? = some p ∧
      (allocateSeq h t ss).1.shape?
        = ss.foldl (fun (_ : Option (List Int)) s => some s) t.shape? := by
  intro ss
  induction ss with
  | nil => intro t hp; exact ⟨rfl, hp, rfl⟩
  | cons s ss ih =>
    intro t hp
    have ha := numAllocate_of_cached h t p s hp
    have hrec := ih { t with shape? := some s } hp
    simp only [allocateSeq, ha]
    exact ⟨by simp [hrec.1], hrec.2.1, hrec.2.2⟩

theorem foldl_setShape (ss : List (List Int)) : ∀ s1 : List Int,
    ss.foldl (fun (_ : Option (List Int)) s => some s) (some s1) = some (lastD ss s1) := by
  induction ss with
  | nil => intro s1; rfl
  | cons s ss ih => intro s1; exact ih s

/-- Claim C3 counterexample: on an output tensor view, `Allocate([2])`
followed by `Allocate([3])` returns the pointer of the first call, but
a subsequent `Shape()` returns `[3]` — the shape of the *latest*
`Allocate` — not the first shape `[2]` as the claim states
(`Allocate` assigns `shape_ = shape` unconditionally before the
`if (!data_)` guard). -/
theorem claim_C3_counterexample :
    (((outTensor0.allocate hostW [2]).1.allocate hostW [3]).2
        = (outTensor0.allocate hostW [2]).2) ∧
    (((outTensor0.allocate hostW [2]).1.allocate hostW [3]).1.shapeE = .ok [3]) ∧
    ([3] : List Int) ≠ [2] :=
  ⟨rfl, rfl, by decide⟩

/-- Claim C3 (amended): after a first `Allocate(s1)` on a view with no
cached buffer, every further `Allocate` call — with any shape — returns
the pointer of the first call and leaves it cached, and the cached
shape afterwards is the shape passed to the *most recent* `Allocate`
call (not the first one). -/
theorem claim_C3_allocate_amended (h : Host) (t : NumTensor) (s1 : List Int)
    (ss : List (List Int)) (h0 : t.data? = none) :
    (allocateSeq h (t.allocate h s1).1 ss).2
        = ss.map (fun _ => (t.allocate h s1).2) ∧
    (allocateSeq h (t.allocate h s1).1 ss).1.data? = some (t.allocate h s1).2 ∧
    (allocateSeq h (t.allocate h s1).1 ss).1.shape? = some (lastD ss s1) := by
  have h1 : (t.allocate h s1).1.data? = some (t.allocate h s1).2 := by
    simp [NumTensor.allocate, h0]
  obtain ⟨e1, e2, e3⟩ := allocateSeq_cached h _ ss _ h1
  refine ⟨e1, e2, ?_⟩
  rw [e3]
  have hs1 : (t.allocate h s1).1.shape? = some s1 := by
    simp [NumTensor.allocate, h0]
  rw [hs1, foldl_setShape]

theorem claim_C3_witness :
    (allocateSeq hostW (outTensor0.allocate hostW [2]).1 [[3], [4]]).2
        = [[3], [4]].map (fun _ => (outTensor0.allocate hostW [2]).2) ∧
    (allocateSeq hostW (outTensor0.allocate hostW [2]).1 [[3], [4]]).1.data?
        = some (outTensor0.allocate hostW [2]).2 ∧
    (allocateSeq hostW (outTensor0.allocate hostW [2]).1 [[3], [4]]).1.shape?
        = some (lastD [[3], [4]] [2]) :=
  claim_C3_allocate_amended hostW outTensor0 [2] [[3], [4]] rfl

/-- Claim C9: a string-view input tensor with `N` elements and `C`
total characters retains the raw byte buffer and emits exactly `N`
non-owning views; the offsets are extended by the synthesized final
offset `C`, and the `k`-th view starts at `offsets[k]` with length
`offsets[k+1] - offsets[k]` (`size_t` subtraction). -/
theorem claim_C9_string_views (h : Host) (idx : Nat) (t : StrViewTensor) (k : Nat)
    (hc : StrViewTensor.construct h idx true = .ok t)
    (hk : k < elemCountN (h.inputShape idx)) :
    t.Data.length = elemCountN (h.inputShape idx) ∧
    t.chars = packedChars h idx ∧
    t.Data[k]? = some ((synthOffsets h idx).getD k 0,
      sizeSub ((synthOffsets h idx).getD (k + 1) 0) ((synthOffsets h idx).getD k 0)) := by
  have hn0 : elemCountN (h.inputShape idx) ≠ 0 := by omega
  simp only [StrViewTensor.construct, if_true] at hc
  split at hc
  · cases hc
  · rw [Except.ok.injEq] at hc
    subst hc
    refine ⟨?_, rfl, ?_⟩
    · simp [StrViewTensor.Data, hn0]
    · simp [StrViewTensor.Data, hn0, List.getElem?_map, List.getElem?_range, hk, synthOffsets]

theorem claim_C9_witness :
    tS.Data.length = elemCountN (hostS.inputShape 0) ∧
    tS.chars = packedChars hostS 0 ∧
    tS.Data[1]? = some ((synthOffsets hostS 0).getD 1 0,
      sizeSub ((synthOffsets hostS 0).getD 2 0) ((synthOffsets hostS 0).getD 1 0)) :=
  claim_C9_string_views hostS 0 tS 1 rfl (by decide)

theorem stepParam_slots {h : Host} {ep : String} {nI nO : Nat} {p : Param} {i o : Nat} {a : Arg}
    (hs : stepParam h ep nI nO p i o = .ok a) :
    argInputSlot a = headInputSlot nI p i ∧ argOutputSlot a = headOutputSlot nO p o := by
  cases p with
  | context =>
    simp only [stepParam, Except.ok.injEq] at hs
    subst hs; exact ⟨rfl, rfl⟩
  | epContext =>
    simp only [stepParam, Except.ok.injEq] at hs
    subst hs; exact ⟨rfl, rfl⟩
  | input k opt et =>
    cases k with
    | tensor =>
      cases opt with
      | false =>
        cases hcat : et.cat <;> simp only [stepParam, hcat] at hs
        · obtain ⟨t, hct, ha⟩ := exceptMap_ok hs
          subst ha
          simp [argInputSlot, headInputSlot, argOutputSlot, headOutputSlot,
            numConstruct_indice hct]
        · obtain ⟨t, hct, ha⟩ := exceptMap_ok hs
          subst ha
          simp [argInputSlot, headInputSlot, argOutputSlot, headOutputSlot,
            strConstruct_indice hct]
        · obtain ⟨t, hct, ha⟩ := exceptMap_ok hs
          subst ha
          simp [argInputSlot, headInputSlot, argOutputSlot, headOutputSlot,
            svConstruct_indice hct]
      | true =>
        by_cases hin : i < nI
        · simp only [stepParam, if_pos hin] at hs
          cases hcat : et.cat <;> simp only [hcat] at hs
          · obtain ⟨t, hct, ha⟩ := exceptMap_ok hs
            subst ha
            simp [argInputSlot, headInputSlot, argOutputSlot, headOutputSlot,
              numConstruct_indice hct, Nat.not_le.mpr hin]
          · obtain ⟨t, hct, ha⟩ := exceptMap_ok hs
            subst ha
            simp [argInputSlot, headInputSlot, argOutputSlot, headOutputSlot,
              strConstruct_indice hct, Nat.not_le.mpr hin]
          · obtain ⟨t, hct, ha⟩ := exceptMap_ok hs
            subst ha
            simp [argInputSlot, headInputSlot, argOutputSlot, headOutputSlot,
              svConstruct_indice hct, Nat.not_le.mpr hin]
        · simp only [stepParam, if_neg hin] at hs
          cases hcat : et.cat <;> simp only [hcat, Except.ok.injEq] at hs <;> subst hs <;>
            simp [argInputSlot, headInputSlot, argOutputSlot, headOutputSlot,
              Nat.not_lt.mp hin]
    | span =>
      cases opt with
      | false =>
        simp only [stepParam] at hs
        obtain ⟨u, hg, hrest⟩ := exceptBind_ok hs
        cases hcat : et.cat <;> simp only [hcat] at hrest
        · obtain ⟨t, hct, h2⟩ := exceptBind_ok hrest
          obtain ⟨v, hv, ha⟩ := exceptMap_ok h2
          subst ha
          simp [argInputSlot, headInputSlot, argOutputSlot, headOutputSlot]
        · obtain ⟨t, hct, h2⟩ := exceptBind_ok hrest
          cases h2
        · obtain ⟨t, hct, h2⟩ := exceptBind_ok hrest
          cases h2
      | true =>
        by_cases hin : i < nI
        · simp only [stepParam, if_pos hin] at hs
          obtain ⟨u, hg, hrest⟩ := exceptBind_ok hs
          cases hcat : et.cat <;> simp only [hcat] at hrest
          · obtain ⟨t, hct, h2⟩ := exceptBind_ok hrest
            obtain ⟨v, hv, ha⟩ := exceptMap_ok h2
            subst ha
            simp [argInputSlot, headInputSlot, argOutputSlot, headOutputSlot,
              Nat.not_le.mpr hin]
          · obtain ⟨t, hct, h2⟩ := exceptBind_ok hrest
            cases h2
          · obtain ⟨t, hct, h2⟩ := exceptBind_ok hrest
            cases h2
        · simp only [stepParam, if_neg hin, Except.ok.injEq] at hs
          subst hs
          simp [argInputSlot, headInputSlot, argOutputSlot, headOutputSlot,
            Nat.not_lt.mp hin]
    | scalar =>
      cases opt with
      | false =>
        simp only [stepParam] at hs
        obtain ⟨u, hg, hrest⟩ := exceptBind_ok hs
        cases hcat : et.cat <;> simp only [hcat] at hrest <;>
        · obtain ⟨t, hct, h2⟩ := exceptBind_ok hrest
          obtain ⟨v, hv, ha⟩ := exceptMap_ok h2
          subst ha
          simp [argInputSlot, headInputSlot, argOutputSlot, headOutputSlot]
      | true =>
        by_cases hin : i < nI
        · simp only [stepParam, if_pos hin] at hs
          obtain ⟨u, hg, hrest⟩ := exceptBind_ok hs
          cases hcat : et.cat <;> simp only [hcat] at hrest <;>
          · obtain ⟨t, hct, h2⟩ := exceptBind_ok hrest
            obtain ⟨v, hv, ha⟩ := exceptMap_ok h2
            subst ha
            simp [argInputSlot, headInputSlot, argOutputSlot, headOutputSlot,
              Nat.not_le.mpr hin]
        · simp only [stepParam, if_neg hin, Except.ok.injEq] at hs
          subst hs
          simp [argInputSlot, headInputSlot, argOutputSlot, headOutputSlot,
            Nat.not_lt.mp hin]
  | output opt et =>
    cases opt with
    | false =>
      cases hcat : et.cat <;> simp only [stepParam, hcat] at hs
      · obtain ⟨t, hct, ha⟩ := exceptMap_ok hs
        subst ha
        simp [argInputSlot, headInputSlot, argOutputSlot, headOutputSlot,
          numConstruct_indice hct]
      · obtain ⟨t, hct, ha⟩ := exceptMap_ok hs
        subst ha
        simp [argInputSlot, headInputSlot, argOutputSlot, headOutputSlot,
          strConstruct_indice hct]
      · exact absurd hs (by simp)
    | true =>
      cases hcat : et.cat with
      | num =>
        by_cases ho : o < nO
        · simp only [stepParam, hcat, if_pos ho] at hs
          obtain ⟨t, hct, ha⟩ := exceptMap_ok hs
          subst ha
          simp [argInputSlot, headInputSlot, argOutputSlot, headOutputSlot,
            numConstruct_indice hct, Nat.not_le.mpr ho]
        · simp only [stepParam, hcat, if_neg ho, Except.ok.injEq] at hs
          subst hs
          simp [argInputSlot, headInputSlot, argOutputSlot, headOutputSlot,
            Nat.not_lt.mp ho]
      | str =>
        by_cases ho : o < nO
        · simp only [stepParam, hcat, if_pos ho] at hs
          obtain ⟨t, hct, ha⟩ := exceptMap_ok hs
          subst ha
          simp [argInputSlot, headInputSlot, argOutputSlot, headOutputSlot,
            strConstruct_indice hct, Nat.not_le.mpr ho]
        · simp only [stepParam, hcat, if_neg ho, Except.ok.injEq] at hs
          subst hs
          simp [argInputSlot, headInputSlot, argOutputSlot, headOutputSlot,
            Nat.not_lt.mp ho]
      | strview =>
        simp only [stepParam, hcat] at hs
        exact absurd hs (by simp)

theorem specInputSlots_cons (nI : Nat) (p : Param) (ps : List Param) (i : Nat) :
    specInputSlots nI (p :: ps) i =
      (headInputSlot nI p i).toList ++ specInputSlots nI ps (p.nextI i) := by
  cases p <;> rfl

theorem specOutputSlots_cons (nO : Nat) (p : Param) (ps : List Param) (o : Nat) :
    specOutputSlots nO (p :: ps) o =
      (headOutputSlot nO p o).toList ++ specOutputSlots nO ps (p.nextO o) := by
  cases p <;> rfl

theorem createTuple_slots (h : Host) (ep : String) (nI nO : Nat) :
    ∀ (ps : List Param) (i o : Nat) (args : List Arg),
      createTuple h ep nI nO ps i o = .ok args →
      inputSlots args = specInputSlots nI ps i ∧
      outputSlots args = specOutputSlots nO ps o := by
  intro ps
  induction ps with
  | nil =>
    intro i o args hok
    simp only [createTuple, Except.ok.injEq] at hok
    subst hok
    exact ⟨rfl, rfl⟩
  | cons p ps ih =>
    intro i o args hok
    simp only [createTuple] at hok
    obtain ⟨a, hstep, hrest⟩ := exceptBind_ok hok
    obtain ⟨args', hrest', ha⟩ := exceptMap_ok hrest
    subst ha
    obtain ⟨h1, h2⟩ := ih _ _ _ hrest'
    obtain ⟨e1, e2⟩ := stepParam_slots hstep
    constructor
    · rw [inputSlots, List.filterMap_cons, specInputSlots_cons, e1]
      cases headInputSlot nI p i <;> simp [Option.toList] <;> exact h1
    · rw [outputSlots, List.filterMap_cons, specOutputSlots_cons, e2]
      cases headOutputSlot nO p o <;> simp [Option.toList] <;> exact h2

/-- Claim C2: whenever `CreateTuple` succeeds, the i-th input parameter
in source order — counting absent optionals — is bound to host input
index i and the j-th output parameter to host output index j; an
optional input parameter at position i with fewer than i+1 host inputs
receives an empty optional at its slot while the input counter still
advances (mirrored for optional outputs).  `specInputSlots` /
`specOutputSlots` are that spec-side binding sequence. -/
theorem claim_C2_binding (h : Host) (ep : String) (nI nO : Nat) (ps : List Param)
    (args : List Arg) (hok : kernelCompute h ep nI nO ps = .ok args) :
    inputSlots args = specInputSlots nI ps 0 ∧
    outputSlots args = specOutputSlots nO ps 0 :=
  createTuple_slots h ep nI nO ps 0 0 args hok

theorem claim_C2_witness :
    inputSlots args2 = specInputSlots 1 ps2 0 ∧
    outputSlots args2 = specOutputSlots 1 ps2 0 :=
  claim_C2_binding hostW "CPUExecutionProvider" 1 1 ps2 args2 rfl

theorem epGate_ne {ep : String} (hep : ep ≠ "CPUExecutionProvider") (msg : String) :
    epGate ep msg = .error (.runtimeException msg) := by
  simp [epGate, hep]

theorem ElemType.cat_eq_strview {et : ElemType} (hc : et.cat = .strview) : et = .strview := by
  cases et <;> simp [ElemType.cat] at hc ⊢

theorem numConstruct_okE (h : Host) {i : Nat} (hlt : i < h.numInputs) :
    ∃ t, NumTensor.construct h i true = .ok t :=
  ⟨_, by rw [NumTensor.construct, if_pos rfl, if_neg (Nat.not_le.mpr hlt)]⟩

theorem strConstruct_okE (h : Host) {i : Nat} (hlt : i < h.numInputs) :
    ∃ t, StrTensor.construct h i true = .ok t :=
  ⟨_, by rw [StrTensor.construct, if_pos rfl, if_neg (Nat.not_le.mpr hlt)]⟩

theorem svConstruct_okE (h : Host) {i : Nat} (hlt : i < h.numInputs) :
    ∃ t, StrViewTensor.construct h i true = .ok t :=
  ⟨_, by rw [StrViewTensor.construct, if_pos rfl, if_neg (Nat.not_le.mpr hlt)]⟩

theorem numConstruct_out (h : Host) (o : Nat) :
    NumTensor.construct h o false =
      .ok { indice := o, is_input := false, shape? := none,
            constData := [], data? := none } := rfl

theorem strConstruct_out (h : Host) (o : Nat) :
    StrTensor.construct h o false =
      .ok { indice := o, is_input := false, shape? := none, input_strings := [] } := rfl

theorem createTuple_gated (h : Host) (ep : String) (nI nO : Nat)
    (hep : ep ≠ "CPUExecutionProvider") :
    ∀ (ps : List Param) (i o : Nat),
      hasGated nI ps i = true →
      i + countInputs ps ≤ h.numInputs →
      ps.all Param.computeSupported = true →
      ∃ msg, createTuple h ep nI nO ps i o = .error (.runtimeException msg) ∧
        (msg = "span input could only be applied to CPU EP" ∨
         msg = "scalar input could only be applied to CPU EP") := by
  intro ps
  induction ps with
  | nil => intro i o hg _ _; simp [hasGated] at hg
  | cons p ps ih =>
    intro i o hg hcnt hsup
    rw [List.all_cons, Bool.and_eq_true] at hsup
    cases p with
    | context =>
      obtain ⟨msg, hmsg, hor⟩ := ih i o (by simpa [hasGated] using hg)
        (by simpa [countInputs] using hcnt) hsup.2
      exact ⟨msg, by simp [createTuple, stepParam, Param.nextI, Param.nextO,
        exceptOkBind, hmsg, exceptMap_error], hor⟩
    | epContext =>
      obtain ⟨msg, hmsg, hor⟩ := ih i o (by simpa [hasGated] using hg)
        (by simpa [countInputs] using hcnt) hsup.2
      exact ⟨msg, by simp [createTuple, stepParam, Param.nextI, Param.nextO,
        exceptOkBind, hmsg, exceptMap_error], hor⟩
    | output opt et =>
      have hne : et.cat ≠ Cat.strview := by
        intro hcv
        rw [ElemType.cat_eq_strview hcv] at hsup
        have := hsup.1
        cases opt <;> simp [Param.computeSupported] at this
      obtain ⟨a, hstep⟩ : ∃ a, stepParam h ep nI nO (.output opt et) i o = .ok a := by
        cases opt with
        | false =>
          cases hcat : et.cat
          · exact ⟨_, by simp only [stepParam, hcat, numConstruct_out, Except.map]; rfl⟩
          · exact ⟨_, by simp only [stepParam, hcat, strConstruct_out, Except.map]; rfl⟩
          · exact absurd hcat hne
        | true =>
          cases hcat : et.cat
          · by_cases ho : o < nO
            · exact ⟨_, by simp only [stepParam, hcat, if_pos ho,
                numConstruct_out, Except.map]; rfl⟩
            · exact ⟨_, by simp only [stepParam, hcat, if_neg ho]; rfl⟩
          · by_cases ho : o < nO
            · exact ⟨_, by simp only [stepParam, hcat, if_pos ho,
                strConstruct_out, Except.map]; rfl⟩
            · exact ⟨_, by simp only [stepParam, hcat, if_neg ho]; rfl⟩
          · exact absurd hcat hne
      obtain ⟨msg, hmsg, hor⟩ := ih i (o + 1) (by simpa [hasGated] using hg)
        (by simpa [countInputs] using hcnt) hsup.2
      exact ⟨msg, by simp [createTuple, hstep, Param.nextI, Param.nextO,
        exceptOkBind, hmsg, exceptMap_error], hor⟩
    | input k opt et =>
      have hlt : i < h.numInputs := by
        simp [countInputs] at hcnt; omega
      have hcnt' : (i + 1) + countInputs ps ≤ h.numInputs := by
        simp [countInputs] at hcnt; omega
      cases k with
      | tensor =>
        have hg' : hasGated nI ps (i + 1) = true := by simpa [hasGated] using hg
        obtain ⟨a, hstep⟩ : ∃ a, stepParam h ep nI nO (.input .tensor opt et) i o = .ok a := by
          cases opt with
          | false =>
            cases hcat : et.cat
            · obtain ⟨t, ht⟩ := numConstruct_okE h hlt
              exact ⟨_, by simp only [stepParam, hcat, ht, Except.map]; rfl⟩
            · obtain ⟨t, ht⟩ := strConstruct_okE h hlt
              exact ⟨_, by simp only [stepParam, hcat, ht, Except.map]; rfl⟩
            · obtain ⟨t, ht⟩ := svConstruct_okE h hlt
              exact ⟨_, by simp only [stepParam, hcat, ht, Except.map]; rfl⟩
          | true =>
            by_cases hin : i < nI
            · cases hcat : et.cat
              · obtain ⟨t, ht⟩ := numConstruct_okE h hlt
                exact ⟨_, by simp only [stepParam, if_pos hin, hcat, ht, Except.map]; rfl⟩
              · obtain ⟨t, ht⟩ := strConstruct_okE h hlt
                exact ⟨_, by simp only [stepParam, if_pos hin, hcat, ht, Except.map]; rfl⟩
              · obtain ⟨t, ht⟩ := svConstruct_okE h hlt
                exact ⟨_, by simp only [stepParam, if_pos hin, hcat, ht, Except.map]; rfl⟩
            · cases hcat : et.cat
              · exact ⟨_, by simp only [stepParam, if_neg hin, hcat]; rfl⟩
              · exact ⟨_, by simp only [stepParam, if_neg hin, hcat]; rfl⟩
              · exact ⟨_, by simp only [stepParam, if_neg hin, hcat]; rfl⟩
        obtain ⟨msg, hmsg, hor⟩ := ih (i + 1) o hg' hcnt' hsup.2
        exact ⟨msg, by simp [createTuple, hstep, Param.nextI, Param.nextO,
          exceptOkBind, hmsg, exceptMap_error], hor⟩
      | span =>
        cases opt with
        | false =>
          refine ⟨"span input could only be applied to CPU EP", ?_, Or.inl rfl⟩
          simp [createTuple, stepParam, epGate_ne hep, exceptBind_error]
        | true =>
          by_cases hin : i < nI
          · refine ⟨"span input could only be applied to CPU EP", ?_, Or.inl rfl⟩
            simp [createTuple, stepParam, if_pos hin, epGate_ne hep, exceptBind_error]
          · have hg' : hasGated nI ps (i + 1) = true := by
              simpa [hasGated, hin] using hg
            obtain ⟨msg, hmsg, hor⟩ := ih (i + 1) o hg' hcnt' hsup.2
            exact ⟨msg, by simp [createTuple, stepParam, if_neg hin, Param.nextI,
              Param.nextO, exceptOkBind, hmsg, exceptMap_error], hor⟩
      | scalar =>
        cases opt with
        | false =>
          refine ⟨"scalar input could only be applied to CPU EP", ?_, Or.inr rfl⟩
          simp [createTuple, stepParam, epGate_ne hep, exceptBind_error]
        | true =>
          by_cases hin : i < nI
          · refine ⟨"scalar input could only be applied to CPU EP", ?_, Or.inr rfl⟩
            simp [createTuple, stepParam, if_pos hin, epGate_ne hep, exceptBind_error]
          · have hg' : hasGated nI ps (i + 1) = true := by
              simpa [hasGated, hin] using hg
            obtain ⟨msg, hmsg, hor⟩ := ih (i + 1) o hg' hcnt' hsup.2
            exact ⟨msg, by simp [createTuple, stepParam, if_neg hin, Param.nextI,
              Param.nextO, exceptOkBind, hmsg, exceptMap_error], hor⟩

/-- Claim C4 counterexample: the parameter list `[optional scalar f32]`
contains a scalar parameter and is registered on a non-CPU provider
(`nI = 0`, the optional is absent), yet `KernelCompute` succeeds — the
user function receives an empty optional and runs — instead of failing
with `RuntimeException` as the claim states. -/
theorem claim_C4_counterexample :
    kernelCompute hostW "CUDAExecutionProvider" 0 0 [.input .scalar true .f32]
      = .ok [.optScalarIn none] := rfl

/-- Claim C4 (amended): if the parameter list contains a scalar or span
parameter whose CPU gate actually executes — i.e. one that is required,
or optional and present at this call site (`hasGated`) — then on a
non-CPU execution provider `KernelCompute` fails during tuple
construction with the EP-gating `RuntimeException` ("span input could
only be applied to CPU EP" or "scalar input could only be applied to
CPU EP") before the user function runs, provided every input
parameter's host index is in range and no (compile-rejected)
`string_view` output parameter is present. -/
theorem claim_C4_ep_gating_amended (h : Host) (ep : String) (nI nO : Nat) (ps : List Param)
    (hep : ep ≠ "CPUExecutionProvider")
    (hg : hasGated nI ps 0 = true)
    (hcnt : countInputs ps ≤ h.numInputs)
    (hsup : ps.all Param.computeSupported = true) :
    kernelCompute h ep nI nO ps
        = .error (.runtimeException "span input could only be applied to CPU EP") ∨
    kernelCompute h ep nI nO ps
        = .error (.runtimeException "scalar input could only be applied to CPU EP") := by
  obtain ⟨msg, hmsg, hor⟩ := createTuple_gated h ep nI nO hep ps 0 0 hg (by omega) hsup
  cases hor with
  | inl h1 => exact Or.inl (h1 ▸ hmsg)
  | inr h1 => exact Or.inr (h1 ▸ hmsg)

theorem claim_C4_witness :
    kernelCompute hostW "CUDAExecutionProvider" 1 1 [.input .scalar false .f32]
        = .error (.runtimeException "span input could only be applied to CPU EP") ∨
    kernelCompute hostW "CUDAExecutionProvider" 1 1 [.input .scalar false .f32]
        = .error (.runtimeException "scalar input could only be applied to CPU EP") :=
  claim_C4_ep_gating_amended hostW "CUDAExecutionProvider" 1 1 [.input .scalar false .f32]
    (by decide) (by decide) (by decide) (by decide)

/-- Claim C10: an optional span or scalar parameter at input position
`i` with `num_input ≤ i` (the parameter is absent) contributes an empty
optional and advances the input counter, without ever evaluating the
CPU-execution-provider gate: the equation holds for every `ep`, so a
non-CPU invocation with the parameter absent raises no EP-gating
`RuntimeException` for it. -/
theorem claim_C10_optional_skips_ep_gate (h : Host) (ep : String) (nI nO : Nat)
    (ps : List Param) (i o : Nat) (et : ElemType) (hi : nI ≤ i) :
    createTuple h ep nI nO (.input .span true et :: ps) i o
      = (createTuple h ep nI nO ps (i + 1) o).map (fun args => Arg.optSpanIn none :: args) ∧
    createTuple h ep nI nO (.input .scalar true et :: ps) i o
      = (createTuple h ep nI nO ps (i + 1) o).map (fun args => Arg.optScalarIn none :: args) := by
  constructor <;>
    simp [createTuple, stepParam, Param.nextI, Param.nextO, Nat.not_lt.mpr hi, exceptOkBind]

theorem claim_C10_witness :
    createTuple hostW "CUDAExecutionProvider" 0 0 [.input .span true .f32] 0 0
      = (createTuple hostW "CUDAExecutionProvider" 0 0 [] 1 0).map
          (fun args => Arg.optSpanIn none :: args) ∧
    createTuple hostW "CUDAExecutionProvider" 0 0 [.input .scalar true .f32] 0 0
      = (createTuple hostW "CUDAExecutionProvider" 0 0 [] 1 0).map
          (fun args => Arg.optScalarIn none :: args) :=
  claim_C10_optional_skips_ep_gate hostW "CUDAExecutionProvider" 0 0 [] 0 0 .f32
    (Nat.le_refl 0)
